import Mathlib

/-!
# Verification of the PGVA-1 Modbus driver backend

Shallow embedding of `src/pgva/pgva_communication.py` (class
`PGVAModbusClient`) together with proofs about its register I/O behavior.

The transport layer (pymodbus) is modelled as an oracle (`Transport`) that
answers each read/write request; the request may succeed with a 16-bit
register value or raise one of the two exception kinds the Python code
catches (`ModbusException`, `TypeError`).  Every register access performed by
a method is recorded in an event trace so that frame conditions ("no wire
I/O happens before validation", "exactly three registers are read") can be
stated and proved.  The unbounded busy-poll loop of `_set_data` is given a
fuel parameter: `SetDataOutcome.fuelOut` means the loop is still running
after `fuel` status reads, so "for every fuel the outcome is `fuelOut`"
expresses divergence of the Python loop.
-/

namespace PGVA

/-- Register names from the device register map (`_PGVARegisters`).  The
numeric Modbus addresses are irrelevant to the verified properties; a
register is identified by its name. -/
inductive Reg where
  | FIRMWARE_VERSION
  | FIRMWARE_SUBVERSION
  | FIRMWARE_BUILD
  | STATUS_WORD
  | OUTPUT_PRESSURE_MBAR
  | VALVE_ACTUATION_TIME
  | PRESSURE_THRESHOLD
  | VACUUM_THRESHOLD
  | PUMP_ENABLE
  | VACUUM_ACTUAL_MBAR
  | PRESSURE_ACTUAL_MBAR
  | OUTPUT_PRESSURE_ACTUAL_MBAR
  | EXTERNAL_SENSOR_VALUE
  deriving DecidableEq, Repr

/-- `PGVAModbusClient._convert_twos_comp(val, bits)`:
`if (val & (1 << (bits - 1))) != 0: val = val - (1 << bits); return val`.
All call sites pass a non-negative raw register value, so `val : Nat`;
the result may be negative, so it is an `Int`. -/
def convert_twos_comp (val : Nat) (bits : Nat) : Int :=
  if val &&& (1 <<< (bits - 1)) ≠ 0 then
    (val : Int) - ((1 <<< bits : Nat) : Int)
  else
    (val : Int)

/-- Fuel-indexed binary digit count: `bitLenFuel fuel v` equals the number of
binary digits of `v` whenever `v ≤ fuel`.  Structural recursion on the fuel
keeps the function kernel-reducible. -/
def bitLenFuel : Nat → Nat → Nat
  | 0, _ => 0
  | fuel + 1, v => if v = 0 then 0 else bitLenFuel fuel (v / 2) + 1

/-- Python `len(bin(v)[2:])`: the number of binary digits of `v`.
`bin(0)` is `"0b0"`, so the result for `v = 0` is `1`. -/
def pyBitLen (v : Nat) : Nat :=
  if v = 0 then 1 else bitLenFuel v v

/-- The sign-encoding step at the top of `PGVAModbusClient._set_data`:
`if val < 0: val = val + 2**16`. -/
def encodeSigned (val : Int) : Int :=
  if val < 0 then val + 2 ^ 16 else val

/-- `bitLenFuel` does not depend on the fuel once the fuel dominates the
value. -/
theorem bitLenFuel_congr : ∀ f g v, v ≤ f → v ≤ g →
    bitLenFuel f v = bitLenFuel g v := by
  intro f
  induction f with
  | zero =>
    intro g v hf _
    interval_cases v
    cases g <;> simp [bitLenFuel]
  | succ f ih =>
    intro g v hf hg
    cases g with
    | zero =>
      interval_cases v
      simp [bitLenFuel]
    | succ g =>
      by_cases hv : v = 0
      · simp [bitLenFuel, hv]
      · have h2 : v / 2 ≤ f := by omega

        have h2' : v / 2 ≤ g := by omega
        simp only [bitLenFuel, hv, if_false]
        rw [ih g (v / 2) h2 h2']

/-- The binary digit count brackets the value between consecutive powers of
two. -/
theorem bitLenFuel_spec : ∀ f v, 1 ≤ v → v ≤ f →
    2 ^ (bitLenFuel f v - 1) ≤ v ∧ v < 2 ^ bitLenFuel f v := by
  intro f
  induction f with
  | zero => intro v h1 h2; omega
  | succ f ih =>
    intro v h1 h2
    have hv : v ≠ 0 := by omega
    simp only [bitLenFuel, hv, if_false]
    rcases Nat.lt_or_ge v 2 with hlt | hge
    · have : v = 1 := by omega
      subst this
      simp [bitLenFuel]
      cases f <;> simp [bitLenFuel]
    · have h1' : 1 ≤ v / 2 := by omega
      have h2' : v / 2 ≤ f := by omega
      obtain ⟨hlo, hhi⟩ := ih (v / 2) h1' h2'
      have hk : 1 ≤ bitLenFuel f (v / 2) := by
        by_contra h
        have : bitLenFuel f (v / 2) = 0 := by omega
        rw [this] at hhi
        omega
      constructor
      · have : 2 ^ (bitLenFuel f (v / 2) + 1 - 1) =
            2 * 2 ^ (bitLenFuel f (v / 2) - 1) := by
          rw [← pow_succ']
          congr 1
          omega
        rw [this]
        omega
      · have : 2 ^ (bitLenFuel f (v / 2) + 1) =
            2 * 2 ^ bitLenFuel f (v / 2) := by
          rw [← pow_succ']
        rw [this]
        omega

/-- `pyBitLen` brackets a positive value between consecutive powers of
two. -/
theorem pyBitLen_spec (v : Nat) (h : 1 ≤ v) :
    2 ^ (pyBitLen v - 1) ≤ v ∧ v < 2 ^ pyBitLen v := by
  have hv : v ≠ 0 := by omega
  simp only [pyBitLen, hv, if_false]
  exact bitLenFuel_spec v v h le_rfl

/-- `_convert_twos_comp` rephrased through `Nat.testBit`. -/
theorem convert_twos_comp_eq_testBit (val bits : Nat) :
    convert_twos_comp val bits =
      if val.testBit (bits - 1) then (val : Int) - 2 ^ bits else (val : Int) := by
  unfold convert_twos_comp
  rw [Nat.one_shiftLeft, Nat.one_shiftLeft, Nat.and_two_pow]
  cases h : val.testBit (bits - 1) with
  | false => simp [h]
  | true =>
    simp only [h, Bool.toNat_true, one_mul, if_true]
    have hpow : (2 : Nat) ^ (bits - 1) ≠ 0 := by positivity
    simp [hpow]

/-- For a positive value, the top bit at index `pyBitLen v - 1` is set. -/
theorem testBit_pyBitLen (v : Nat) (h : 1 ≤ v) :
    v.testBit (pyBitLen v - 1) = true := by
  obtain ⟨hlo, hhi⟩ := pyBitLen_spec v h
  rw [Nat.testBit_to_div_mod]
  have hdiv1 : 1 ≤ v / 2 ^ (pyBitLen v - 1) :=
    (Nat.one_le_div_iff (by positivity)).mpr hlo
  have hdiv2 : v / 2 ^ (pyBitLen v - 1) < 2 := by
    apply Nat.div_lt_of_lt_mul
    calc v < 2 ^ pyBitLen v := hhi
    _ ≤ 2 ^ (pyBitLen v - 1) * 2 := by
        rw [← pow_succ]
        apply Nat.pow_le_pow_right (by omega)
        omega
  have : v / 2 ^ (pyBitLen v - 1) = 1 := by omega
  simp [this]

/-- Decoding a positive value at its own bit length always subtracts the
full power of two, and the result is strictly negative. -/
theorem convert_twos_comp_pyBitLen (v : Nat) (h : 1 ≤ v) :
    convert_twos_comp v (pyBitLen v) = (v : Int) - 2 ^ pyBitLen v ∧
      convert_twos_comp v (pyBitLen v) < 0 := by
  rw [convert_twos_comp_eq_testBit, testBit_pyBitLen v h, if_pos rfl]
  refine ⟨rfl, ?_⟩
  have hhi := (pyBitLen_spec v h).2
  have : (v : Int) < 2 ^ pyBitLen v := by exact_mod_cast hhi
  omega

/-- Outcome of a read request answered by the transport: a register value,
or one of the exception kinds the Python code catches
(`pymodbus.exceptions.ModbusException`, `TypeError`). -/
inductive RResp where
  | ok (v : Nat)
  | modbusExc
  | typeExc
  deriving DecidableEq, Repr

/-- Outcome of a write request answered by the transport. -/
inductive WResp where
  | ok
  | modbusExc
  | typeExc
  deriving DecidableEq, Repr

/-- A register access performed on the wire, as recorded in the trace. -/
inductive Event where
  | readInput (r : Reg)
  | readHolding (r : Reg)
  | write (r : Reg) (v : Int)
  deriving DecidableEq, Repr

/-- The transport (pymodbus client) as an oracle: the response to the `n`-th
wire access of the session (where `n` is the number of prior accesses). -/
structure Transport where
  readInput : Nat → Reg → RResp
  readHolding : Nat → Reg → RResp
  writeReg : Nat → Reg → Int → WResp

/-- Mutable client state: the cached `self.version` list (entries may be
`none`, since `_get_data` returns `None` on a failed read) and the trace of
wire accesses performed so far. -/
structure ClientState where
  version : List (Option Nat)
  events : List Event
  deriving DecidableEq, Repr

/-- The firmware triple `[2, 1, 3]` that the code compares `self.version[0:3]`
against. -/
def v213 : List (Option Nat) := [some 2, some 1, some 3]

/-- Python exceptions that can escape the modelled methods. -/
inductive PyErr where
  | valueError
  | typeError
  | notImplementedError
  deriving DecidableEq, Repr

/-- Result of calling a method: normal return, a raised exception, or —
for the fuel-bounded busy-poll loop — still looping after the given fuel. -/
inductive PyResult (α : Type) where
  | ok (a : α)
  | exn (e : PyErr)
  | diverged
  deriving DecidableEq, Repr

/-- Result of `_set_data`: `done` covers both the normal return and the
caught-and-logged exception paths (the method never raises); `fuelOut`
means the busy-poll loop was still running after `fuel` status reads. -/
inductive SetDataOutcome where
  | done
  | fuelOut
  deriving DecidableEq, Repr

/-- `PGVAModbusClient._get_data(register)`: one input-register read;
returns `None` (here `none`) when the transport raises. -/
def get_data (tr : Transport) (evs : List Event) (r : Reg) :
    Option Nat × List Event :=
  match tr.readInput evs.length r with
  | RResp.ok v => (some v, evs ++ [Event.readInput r])
  | _ => (none, evs ++ [Event.readInput r])

/-- `PGVAModbusClient._get_data_holding(register)`: one holding-register
read; returns `none` when the transport raises. -/
def get_data_holding (tr : Transport) (evs : List Event) (r : Reg) :
    Option Nat × List Event :=
  match tr.readHolding evs.length r with
  | RResp.ok v => (some v, evs ++ [Event.readHolding r])
  | _ => (none, evs ++ [Event.readHolding r])

/-- The status-poll part of `_set_data`: read `STATUS_WORD` and re-read while
bit 0 (busy) is set.  One unit of fuel is one status read; the Python loop
has no bound, so `fuelOut` for every fuel models its divergence.  A transport
exception during a poll is caught by `_set_data`'s handler, ending the
method normally (`done`). -/
def pollStatus (tr : Transport) : Nat → List Event → SetDataOutcome × List Event
  | 0, evs => (SetDataOutcome.fuelOut, evs)
  | fuel + 1, evs =>
    match tr.readInput evs.length Reg.STATUS_WORD with
    | RResp.ok v =>
        if v &&& 1 = 1 then
          pollStatus tr fuel (evs ++ [Event.readInput Reg.STATUS_WORD])
        else
          (SetDataOutcome.done, evs ++ [Event.readInput Reg.STATUS_WORD])
    | _ => (SetDataOutcome.done, evs ++ [Event.readInput Reg.STATUS_WORD])

/-- `PGVAModbusClient._set_data(register, val)`: apply the negative-value
encoding, write the register, then poll the status word until the busy bit
clears.  `ModbusException`/`TypeError` anywhere inside are caught and only
logged, so the method returns normally (`done`) on every exception path. -/
def set_data (tr : Transport) (fuel : Nat) (reg : Reg) (val : Int)
    (evs : List Event) : SetDataOutcome × List Event :=
  match tr.writeReg evs.length reg (encodeSigned val) with
  | WResp.ok => pollStatus tr fuel (evs ++ [Event.write reg (encodeSigned val)])
  | _ => (SetDataOutcome.done, evs ++ [Event.write reg (encodeSigned val)])

/-- `PGVAModbusClient.get_firmware_version()`: the method first resets
`self.version` to `[]`, then (the `len(self.version) < 3` guard is
necessarily true after the reset) reads the three firmware registers and
caches and returns the triple. -/
def get_firmware_version (tr : Transport) (st : ClientState) :
    List (Option Nat) × ClientState :=
  let st0 : ClientState := { st with version := [] }
  if st0.version.length < 3 then
    let r1 := get_data tr st0.events Reg.FIRMWARE_VERSION
    let r2 := get_data tr r1.2 Reg.FIRMWARE_SUBVERSION
    let r3 := get_data tr r2.2 Reg.FIRMWARE_BUILD
    let ver := [r1.1, r2.1, r3.1]
    (ver, { version := ver, events := r3.2 })
  else
    ([some 0, some 0, some 0], st0)

/-- `PGVAModbusClient._validate_pump_enable()`: when the cached firmware
version differs from `[2, 1, 3]`, read the pump-enable holding register and
report whether it equals 1; for firmware `[2, 1, 3]` report `True` with no
wire access. -/
def validate_pump_enable (tr : Transport) (st : ClientState) :
    Bool × ClientState :=
  if st.version.take 3 ≠ v213 then
    match get_data_holding tr st.events Reg.PUMP_ENABLE with
    | (some 1, evs') => (true, { st with events := evs' })
    | (_, evs') => (false, { st with events := evs' })
  else
    (true, st)

/-- Hardware limit constants from `_constants.py`. -/
def MINIMUM_OUTPUT_PRESSURE_MBAR : Int := -450

/-- Hardware limit constant from `_constants.py`. -/
def MAXIMUM_OUTPUT_PRESSURE_MBAR : Int := 450

/-- Hardware limit constant from `_constants.py`. -/
def MINIMUM_PRESSURE_CHAMBER_MBAR : Int := 200

/-- Hardware limit constant from `_constants.py`. -/
def MAXIMUM_PRESSURE_CHAMBER_MBAR : Int := 1000

/-- Hardware limit constant from `_constants.py`. -/
def MINIMUM_VACUUM_CHAMBER_MBAR : Int := -900

/-- Hardware limit constant from `_constants.py`. -/
def MAXIMUM_VACUUM_CHAMBER_MBAR : Int := -200

/-- `int(pressure * PRESSURE_CHAMBER_CONVERSION_FACTOR)` where the factor is
`1 / 0.5543`.  For every validated input `200 ≤ p ≤ 1000` the binary64
computation and exact rational arithmetic truncate to the same integer
(the exact value `p * 10000 / 5543` is never an integer there, since
`5543 = 23 · 241` shares no factor with `10000` and exceeds `p`, and the
floating-point error is orders of magnitude below the distance to the
nearest integer), so the scaling is modelled as truncated rational
division. -/
def pressureChamberScale (p : Int) : Int := Int.tdiv (p * 10000) 5543

/-- `int(vacuum * VACUUM_CHAMBER_CONVERSION_FACTOR)` where the factor is
`1 / -0.277`; same exact-agreement argument as `pressureChamberScale` on the
validated domain `−900 ≤ v ≤ −200`. -/
def vacuumChamberScale (v : Int) : Int := Int.tdiv (v * (-1000)) 277

/-- Package a `set_data` outcome into the caller's result. -/
def liftSetData (r : SetDataOutcome × List Event) (st : ClientState) :
    PyResult Unit × ClientState :=
  match r with
  | (SetDataOutcome.done, evs') => (PyResult.ok (), { st with events := evs' })
  | (SetDataOutcome.fuelOut, evs') => (PyResult.diverged, { st with events := evs' })

/-- `PGVAModbusClient.set_output_pressure(pressure)`: first the pump-enable
precondition check; when it passes, the range check against
`[-450, 450]`, then `_set_data` on the output-pressure register; out of
range raises `ValueError`; when the pump check fails the method returns
with no write and no error. -/
def set_output_pressure (tr : Transport) (fuel : Nat) (pressure : Int)
    (st : ClientState) : PyResult Unit × ClientState :=
  if (validate_pump_enable tr st).1 then
    if MINIMUM_OUTPUT_PRESSURE_MBAR ≤ pressure ∧
        pressure ≤ MAXIMUM_OUTPUT_PRESSURE_MBAR then
      liftSetData
        (set_data tr fuel Reg.OUTPUT_PRESSURE_MBAR pressure
          (validate_pump_enable tr st).2.events)
        (validate_pump_enable tr st).2
    else
      (PyResult.exn PyErr.valueError, (validate_pump_enable tr st).2)
  else
    (PyResult.ok (), (validate_pump_enable tr st).2)

/-- `PGVAModbusClient.set_actuation_time(actuation_time)`:
`actuation_time in range(5, 65535)` accepts the integers 5..65534. -/
def set_actuation_time (tr : Transport) (fuel : Nat) (t : Int)
    (st : ClientState) : PyResult Unit × ClientState :=
  if 5 ≤ t ∧ t < 65535 then
    liftSetData (set_data tr fuel Reg.VALVE_ACTUATION_TIME t st.events) st
  else
    (PyResult.exn PyErr.valueError, st)

/-- `PGVAModbusClient.set_pressure_chamber(pressure)`: range check against
`[200, 1000]`, scaling, then `_set_data` on the pressure threshold
register. -/
def set_pressure_chamber (tr : Transport) (fuel : Nat) (pressure : Int)
    (st : ClientState) : PyResult Unit × ClientState :=
  if MINIMUM_PRESSURE_CHAMBER_MBAR ≤ pressure ∧
      pressure ≤ MAXIMUM_PRESSURE_CHAMBER_MBAR then
    liftSetData
      (set_data tr fuel Reg.PRESSURE_THRESHOLD (pressureChamberScale pressure) st.events) st
  else
    (PyResult.exn PyErr.valueError, st)

/-- `PGVAModbusClient.set_vacuum_chamber(vacuum)`: range check against
`[-900, -200]`, scaling, then `_set_data` on the vacuum threshold
register. -/
def set_vacuum_chamber (tr : Transport) (fuel : Nat) (vacuum : Int)
    (st : ClientState) : PyResult Unit × ClientState :=
  if MINIMUM_VACUUM_CHAMBER_MBAR ≤ vacuum ∧
      vacuum ≤ MAXIMUM_VACUUM_CHAMBER_MBAR then
    liftSetData
      (set_data tr fuel Reg.VACUUM_THRESHOLD (vacuumChamberScale vacuum) st.events) st
  else
    (PyResult.exn PyErr.valueError, st)

/-- `PGVAModbusClient.toggle_pump(toggle)`: write 1/0 to the pump-enable
register via `_set_data`, unless the cached firmware version is `[2, 1, 3]`,
in which case the method only logs and returns. -/
def toggle_pump (tr : Transport) (fuel : Nat) (toggle : Bool)
    (st : ClientState) : PyResult Unit × ClientState :=
  if st.version.take 3 ≠ v213 then
    liftSetData
      (set_data tr fuel Reg.PUMP_ENABLE (if toggle then 1 else 0) st.events) st
  else
    (PyResult.ok (), st)

/-- `PGVAModbusClient.get_vacuum_chamber()`: read the raw register value and
decode it as two's complement at the raw value's own binary digit count
(`len(bin(vacuum)[2:])`).  When the read failed, `_get_data` returned
`None` and `bin(None)` raises an uncaught `TypeError`. -/
def get_vacuum_chamber (tr : Transport) (evs : List Event) :
    PyResult Int × List Event :=
  match get_data tr evs Reg.VACUUM_ACTUAL_MBAR with
  | (some v, evs') => (PyResult.ok (convert_twos_comp v (pyBitLen v)), evs')
  | (none, evs') => (PyResult.exn PyErr.typeError, evs')

/-- `PGVAModbusClient.get_pressure_chamber()`: the raw register value is
returned undecoded (possibly `None` after a failed read). -/
def get_pressure_chamber (tr : Transport) (evs : List Event) :
    Option Nat × List Event :=
  get_data tr evs Reg.PRESSURE_ACTUAL_MBAR

/-- `PGVAModbusClient.get_output_pressure()`: the raw value is returned
unchanged when it is at most 500 and decoded as two's complement at its own
binary digit count when it exceeds 500.  When the read failed, the Python
comparison `None > 500` raises an uncaught `TypeError`. -/
def get_output_pressure (tr : Transport) (evs : List Event) :
    PyResult Int × List Event :=
  match get_data tr evs Reg.OUTPUT_PRESSURE_ACTUAL_MBAR with
  | (some p, evs') =>
      if 500 < p then
        (PyResult.ok (convert_twos_comp p (pyBitLen p)), evs')
      else
        (PyResult.ok (p : Int), evs')
  | (none, evs') => (PyResult.exn PyErr.typeError, evs')

/-- A transport answering every read with the same value `v` and accepting
every write. -/
def trConst (v : Nat) : Transport :=
  { readInput := fun _ _ => RResp.ok v
    readHolding := fun _ _ => RResp.ok v
    writeReg := fun _ _ _ => WResp.ok }

/-- Device that is wedged busy: bit 0 of every status read is set; the pump
reads as enabled and writes succeed. -/
def trBusy : Transport := trConst 1

/-- Idle device with the pump-enable holding register reading 0. -/
def trPumpOff : Transport := trConst 0

/-- Idle device (status reads 0) with the pump-enable holding register
reading 1. -/
def trPumpOn : Transport :=
  { readInput := fun _ _ => RResp.ok 0
    readHolding := fun _ _ => RResp.ok 1
    writeReg := fun _ _ _ => WResp.ok }

/-- Pump enabled, but every register write raises `ModbusException`. -/
def trWFail : Transport :=
  { readInput := fun _ _ => RResp.ok 0
    readHolding := fun _ _ => RResp.ok 1
    writeReg := fun _ _ _ => WResp.modbusExc }

/-- Client state with cached firmware version `[2, 0, 45]` and an empty
trace. -/
def st2045 : ClientState :=
  { version := [some 2, some 0, some 45], events := [] }

/-- Client state with cached firmware version `[2, 1, 3]` and an empty
trace. -/
def stV213 : ClientState := { version := v213, events := [] }

/-- The trace side of `_get_data` is one read event, whatever the response. -/
theorem get_data_snd (tr : Transport) (evs : List Event) (r : Reg) :
    (get_data tr evs r).2 = evs ++ [Event.readInput r] := by
  unfold get_data
  cases tr.readInput evs.length r <;> rfl

/-- The trace side of `_get_data_holding` is one read event, whatever the
response. -/
theorem get_data_holding_snd (tr : Transport) (evs : List Event) (r : Reg) :
    (get_data_holding tr evs r).2 = evs ++ [Event.readHolding r] := by
  unfold get_data_holding
  cases tr.readHolding evs.length r <;> rfl

/-- `liftSetData` passes the trace through unchanged. -/
theorem liftSetData_snd (r : SetDataOutcome × List Event) (st : ClientState) :
    (liftSetData r st).2.events = r.2 := by
  obtain ⟨o, evs⟩ := r
  cases o <;> rfl

/-- A completed `_set_data` lifts to a normal (`None`) return. -/
theorem liftSetData_fst_done {r : SetDataOutcome × List Event}
    {st : ClientState} (h : r.1 = SetDataOutcome.done) :
    (liftSetData r st).1 = PyResult.ok () := by
  obtain ⟨o, evs⟩ := r
  cases o
  · rfl
  · exact absurd h (by simp)

/-- A fuel-exhausted `_set_data` lifts to divergence. -/
theorem liftSetData_fst_fuelOut {r : SetDataOutcome × List Event}
    {st : ClientState} (h : r.1 = SetDataOutcome.fuelOut) :
    (liftSetData r st).1 = PyResult.diverged := by
  obtain ⟨o, evs⟩ := r
  cases o
  · exact absurd h (by simp)
  · rfl

/-- `liftSetData` never produces a Python exception. -/
theorem liftSetData_fst_ne_exn (r : SetDataOutcome × List Event)
    (st : ClientState) (e : PyErr) :
    (liftSetData r st).1 ≠ PyResult.exn e := by
  obtain ⟨o, evs⟩ := r
  cases o <;> simp [liftSetData]

/-- Against a transport whose status word always reads busy, the poll loop
is still running after any number of status reads. -/
theorem pollStatus_always_busy (tr : Transport)
    (h : ∀ n, tr.readInput n Reg.STATUS_WORD = RResp.ok 1) :
    ∀ fuel evs, (pollStatus tr fuel evs).1 = SetDataOutcome.fuelOut := by
  intro fuel
  induction fuel with
  | zero => intro evs; rfl
  | succ fuel ih =>
    intro evs
    have hb : (1 : Nat) &&& 1 = 1 := rfl
    simp only [pollStatus, h evs.length, hb, if_pos]
    exact ih (evs ++ [Event.readInput Reg.STATUS_WORD])

/-- The poll loop only ever appends to the trace. -/
theorem pollStatus_events_extend (tr : Transport) :
    ∀ fuel evs, ∃ rest, (pollStatus tr fuel evs).2 = evs ++ rest := by
  intro fuel
  induction fuel with
  | zero => intro evs; exact ⟨[], by simp [pollStatus]⟩
  | succ fuel ih =>
    intro evs
    unfold pollStatus
    cases hr : tr.readInput evs.length Reg.STATUS_WORD with
    | ok v =>
      dsimp only
      by_cases hb : v &&& 1 = 1
      · rw [if_pos hb]
        obtain ⟨rest, hrest⟩ := ih (evs ++ [Event.readInput Reg.STATUS_WORD])
        exact ⟨Event.readInput Reg.STATUS_WORD :: rest, by rw [hrest]; simp⟩
      · rw [if_neg hb]
        exact ⟨[Event.readInput Reg.STATUS_WORD], rfl⟩
    | modbusExc => exact ⟨[Event.readInput Reg.STATUS_WORD], rfl⟩
    | typeExc => exact ⟨[Event.readInput Reg.STATUS_WORD], rfl⟩

/-- `_set_data` first appends the register write to the trace, then only
status reads. -/
theorem set_data_events (tr : Transport) (fuel : Nat) (reg : Reg) (val : Int)
    (evs : List Event) :
    ∃ rest, (set_data tr fuel reg val evs).2 =
      evs ++ Event.write reg (encodeSigned val) :: rest := by
  unfold set_data
  cases hw : tr.writeReg evs.length reg (encodeSigned val) with
  | ok =>
    obtain ⟨rest, hrest⟩ :=
      pollStatus_events_extend tr fuel (evs ++ [Event.write reg (encodeSigned val)])
    exact ⟨rest, by rw [hrest]; simp⟩
  | modbusExc => exact ⟨[], by simp⟩
  | typeExc => exact ⟨[], by simp⟩

/-- When every write raises, or writes succeed but every status read raises,
`_set_data` catches the exception and returns normally. -/
theorem set_data_exc_done (tr : Transport) (fuel : Nat) (reg : Reg)
    (val : Int) (evs : List Event) (hfuel : 1 ≤ fuel)
    (hF : (∀ n r v, tr.writeReg n r v ≠ WResp.ok) ∨
          ((∀ n r v, tr.writeReg n r v = WResp.ok) ∧
           ∀ n, tr.readInput n Reg.STATUS_WORD = RResp.modbusExc)) :
    (set_data tr fuel reg val evs).1 = SetDataOutcome.done := by
  rcases hF with h | ⟨hw, hr⟩
  · unfold set_data
    cases hwr : tr.writeReg evs.length reg (encodeSigned val) with
    | ok => exact absurd hwr (h _ _ _)
    | modbusExc => rfl
    | typeExc => rfl
  · unfold set_data
    rw [hw]
    cases fuel with
    | zero => omega
    | succ fuel =>
      unfold pollStatus
      rw [hr]

/-- C3 — `_convert_twos_comp(raw, bits)` for `bits` in 1..16 and
`raw < 2^bits` returns `raw` when the sign bit (bit `bits − 1`) is clear and
`raw − 2^bits` when it is set.  The function is a pure Lean function, hence
side-effect free. -/
theorem decode_twos_complement_correct (bits raw : Nat)
    (h1 : 1 ≤ bits) (h2 : bits ≤ 16) (h3 : raw < 2 ^ bits) :
    convert_twos_comp raw bits =
      if raw.testBit (bits - 1) then (raw : Int) - 2 ^ bits else (raw : Int) := by
  exact convert_twos_comp_eq_testBit raw bits

/-- Witness for C3: `bits = 8, raw = 200` gives `−56`, and
`bits = 16, raw = 65535` gives `−1`. -/
theorem decode_twos_complement_correct_witness :
    convert_twos_comp 200 8 = -56 ∧ convert_twos_comp 65535 16 = -1 := by
  have h8 := decode_twos_complement_correct 8 200 (by decide) (by decide) (by decide)
  have h16 := decode_twos_complement_correct 16 65535 (by decide) (by decide) (by decide)
  constructor
  · rw [h8]; decide
  · rw [h16]; decide

/-- C4 — encoding a signed value as a 16-bit register (adding `65536` when
negative, as in `_set_data`) and decoding it as 16-bit two's complement
(as in `_convert_twos_comp`) is the identity on `[−32768, 32767]`. -/
theorem encode_decode_roundtrip (v : Int) (h1 : -32768 ≤ v) (h2 : v ≤ 32767) :
    convert_twos_comp (encodeSigned v).toNat 16 = v := by
  rw [convert_twos_comp_eq_testBit]
  by_cases hneg : v < 0
  · have henc : encodeSigned v = v + 65536 := by simp [encodeSigned, hneg]
    have hrange : 32768 ≤ (encodeSigned v).toNat ∧ (encodeSigned v).toNat ≤ 65535 := by
      rw [henc]
      omega
    have hbit : (encodeSigned v).toNat.testBit 15 = true := by
      rw [Nat.testBit_to_div_mod, decide_eq_true_eq]
      omega
    rw [hbit, if_pos rfl]
    rw [henc]
    omega
  · have henc : encodeSigned v = v := by simp [encodeSigned, hneg]
    have hrange : (encodeSigned v).toNat ≤ 32767 := by rw [henc]; omega
    have hbit : (encodeSigned v).toNat.testBit 15 = false := by
      rw [Nat.testBit_to_div_mod, decide_eq_false_iff_not]
      omega
    rw [hbit, if_neg (by simp)]
    rw [henc]
    omega

/-- Witness for C4: round trip at `v = −450` (encoded register 65086) and at
the interval endpoints. -/
theorem encode_decode_roundtrip_witness :
    convert_twos_comp (encodeSigned (-450)).toNat 16 = -450 ∧
      convert_twos_comp (encodeSigned (-32768)).toNat 16 = -32768 ∧
      convert_twos_comp (encodeSigned 32767).toNat 16 = 32767 :=
  ⟨encode_decode_roundtrip (-450) (by decide) (by decide),
   encode_decode_roundtrip (-32768) (by decide) (by decide),
   encode_decode_roundtrip 32767 (by decide) (by decide)⟩

/-- C1 — refuted by the code (code bug): every write operation writes the
target register and then polls the busy bit, but the source loop
(`while (status.registers[0] & 1) == 1`) has no bound: against a device
whose busy bit never clears, `_set_data` — and with it every write
operation — is still polling after arbitrarily many status reads, and no
Timeout error is ever produced (the implementation has no timeout path,
although the repository's unit tests call `_set_data(..., timeout=...)`
and expect a `TimeoutError`). -/
theorem unbounded_busy_poll_diverges :
    ∀ fuel : Nat,
      (set_data trBusy fuel Reg.OUTPUT_PRESSURE_MBAR 100 []).1 =
          SetDataOutcome.fuelOut ∧
      (set_output_pressure trBusy fuel 200 st2045).1 = PyResult.diverged ∧
      (set_actuation_time trBusy fuel 100 st2045).1 = PyResult.diverged ∧
      (set_pressure_chamber trBusy fuel 500 st2045).1 = PyResult.diverged ∧
      (set_vacuum_chamber trBusy fuel (-500) st2045).1 = PyResult.diverged ∧
      (toggle_pump trBusy fuel true st2045).1 = PyResult.diverged := by
  intro fuel
  have hbusy : ∀ n, trBusy.readInput n Reg.STATUS_WORD = RResp.ok 1 :=
    fun _ => rfl
  have hsd : ∀ reg val evs,
      (set_data trBusy fuel reg val evs).1 = SetDataOutcome.fuelOut := by
    intro reg val evs
    unfold set_data
    exact pollStatus_always_busy trBusy hbusy fuel _
  refine ⟨hsd _ _ _, ?_, ?_, ?_, ?_, ?_⟩ <;>
    exact liftSetData_fst_fuelOut (hsd _ _ _)

/-- C2 counterexample — with cached firmware `[2, 0, 45]` and the
pump-enable holding register reading 0, `set_output_pressure(451)` raises
nothing at all (the out-of-range branch is skipped along with the write),
and a pump-enable holding-register read has already hit the wire before
validation, refuting both halves of the claim. -/
theorem set_output_pressure_out_of_range_counterexample :
    (set_output_pressure trPumpOff 1 451 st2045).1 = PyResult.ok () ∧
    (set_output_pressure trPumpOff 1 451 st2045).2.events =
      [Event.readHolding Reg.PUMP_ENABLE] := by
  constructor <;> rfl

/-- C2 amended — when the pump-enable precondition passes (firmware equals
`[2, 1, 3]`, or the pump-enable holding register reads 1),
`set_output_pressure` raises `ValueError` for pressures outside
`[−450, 450]` and never raises it inside; on the out-of-range path no
register is written, but for firmware other than `[2, 1, 3]` one
pump-enable holding-register read has already occurred before validation. -/
theorem set_output_pressure_validation_amended (tr : Transport) (fuel : Nat)
    (st : ClientState) (p : Int)
    (hEn : st.version.take 3 = v213 ∨
           tr.readHolding st.events.length Reg.PUMP_ENABLE = RResp.ok 1) :
    ((p < -450 ∨ 450 < p) →
        (set_output_pressure tr fuel p st).1 = PyResult.exn PyErr.valueError ∧
        (set_output_pressure tr fuel p st).2.events =
          (if st.version.take 3 = v213 then st.events
           else st.events ++ [Event.readHolding Reg.PUMP_ENABLE])) ∧
    ((-450 ≤ p ∧ p ≤ 450) →
        ∀ e, (set_output_pressure tr fuel p st).1 ≠ PyResult.exn e) := by
  constructor
  · intro hout
    have hnr : ¬(MINIMUM_OUTPUT_PRESSURE_MBAR ≤ p ∧
        p ≤ MAXIMUM_OUTPUT_PRESSURE_MBAR) := by
      unfold MINIMUM_OUTPUT_PRESSURE_MBAR MAXIMUM_OUTPUT_PRESSURE_MBAR
      omega
    by_cases hv : st.version.take 3 = v213
    · have hval : validate_pump_enable tr st = (true, st) := by
        unfold validate_pump_enable
        rw [if_neg (not_not_intro hv)]
      rw [if_pos hv]
      unfold set_output_pressure
      rw [hval]
      dsimp only
      rw [if_pos rfl, if_neg hnr]
      exact ⟨rfl, rfl⟩
    · rcases hEn with h | h
      · exact absurd h hv
      · have hgd : get_data_holding tr st.events Reg.PUMP_ENABLE =
            (some 1, st.events ++ [Event.readHolding Reg.PUMP_ENABLE]) := by
          unfold get_data_holding
          rw [h]
        have hval : validate_pump_enable tr st =
            (true, { st with
              events := st.events ++ [Event.readHolding Reg.PUMP_ENABLE] }) := by
          unfold validate_pump_enable
          rw [if_pos hv, hgd]
        rw [if_neg hv]
        unfold set_output_pressure
        rw [hval]
        dsimp only
        rw [if_pos rfl, if_neg hnr]
        exact ⟨rfl, rfl⟩
  · intro hin e
    unfold set_output_pressure
    by_cases hvp : (validate_pump_enable tr st).1 = true
    · rw [if_pos hvp,
        if_pos (show MINIMUM_OUTPUT_PRESSURE_MBAR ≤ p ∧
          p ≤ MAXIMUM_OUTPUT_PRESSURE_MBAR from ⟨hin.1, hin.2⟩)]
      exact liftSetData_fst_ne_exn _ _ e
    · rw [if_neg hvp]
      simp

/-- Witness for the amended C2: pump enabled, firmware `[2, 0, 45]`,
pressure 451 — `ValueError` is raised after exactly one pump-enable read
and no write; pressure 450 raises nothing. -/
theorem set_output_pressure_validation_amended_witness :
    ((set_output_pressure trPumpOn 1 451 st2045).1 =
        PyResult.exn PyErr.valueError ∧
      (set_output_pressure trPumpOn 1 451 st2045).2.events =
        [Event.readHolding Reg.PUMP_ENABLE]) ∧
    ∀ e, (set_output_pressure trPumpOn 1 450 st2045).1 ≠ PyResult.exn e := by
  constructor
  · have h := (set_output_pressure_validation_amended trPumpOn 1 st2045 451
      (Or.inr rfl)).1 (Or.inr (by decide))
    refine ⟨h.1, ?_⟩
    rw [h.2]
    decide
  · exact (set_output_pressure_validation_amended trPumpOn 1 st2045 450
      (Or.inr rfl)).2 (by decide)

/-- C5 — `get_vacuum_chamber` always applies the two's-complement decode,
with the bit width recomputed per reading as the raw value's binary digit
count (`len(bin(raw)[2:])`), not fixed at 16; raw 65086 decodes to −450,
and raw 5 decodes at width 3 to −3 (a fixed width of 16 would leave it
at 5). -/
theorem get_vacuum_chamber_decodes_at_bitlen (tr : Transport)
    (evs : List Event) (raw : Nat)
    (h : tr.readInput evs.length Reg.VACUUM_ACTUAL_MBAR = RResp.ok raw) :
    (get_vacuum_chamber tr evs).1 =
        PyResult.ok (convert_twos_comp raw (pyBitLen raw)) ∧
      (get_vacuum_chamber (trConst 65086) []).1 = PyResult.ok (-450) ∧
      (get_vacuum_chamber (trConst 5) []).1 = PyResult.ok (-3) := by
  refine ⟨?_, by decide, by decide⟩
  unfold get_vacuum_chamber get_data
  rw [h]

/-- Witness for C5: a transport reading raw 65086 yields −450. -/
theorem get_vacuum_chamber_decodes_at_bitlen_witness :
    (get_vacuum_chamber (trConst 65086) []).1 = PyResult.ok (-450) :=
  (get_vacuum_chamber_decodes_at_bitlen (trConst 65086) [] 65086 rfl).2.1

/-- C6 — `get_output_pressure` returns the raw register value unchanged
whenever it is at most 500, and applies the two's-complement decode at the
raw value's binary digit count exactly when the raw value exceeds 500. -/
theorem get_output_pressure_threshold_decode (tr : Transport)
    (evs : List Event) (raw : Nat)
    (h : tr.readInput evs.length Reg.OUTPUT_PRESSURE_ACTUAL_MBAR =
      RResp.ok raw) :
    (get_output_pressure tr evs).1 =
      if 500 < raw then PyResult.ok (convert_twos_comp raw (pyBitLen raw))
      else PyResult.ok (raw : Int) := by
  unfold get_output_pressure get_data
  rw [h]
  dsimp only
  split <;> rfl

/-- Witness for C6: raw 500 is returned unchanged; raw 501 is decoded to
−11. -/
theorem get_output_pressure_threshold_decode_witness :
    (get_output_pressure (trConst 500) []).1 = PyResult.ok 500 ∧
    (get_output_pressure (trConst 501) []).1 = PyResult.ok (-11) := by
  have h1 := get_output_pressure_threshold_decode (trConst 500) [] 500 rfl
  have h2 := get_output_pressure_threshold_decode (trConst 501) [] 501 rfl
  rw [h1, h2]
  constructor <;> decide

/-- C7 — when the cached firmware version is `[2, 1, 3]`, `toggle_pump` is
a no-op (no wire access, state unchanged) for either argument, and
`_validate_pump_enable` reads no register and reports the pump enabled;
for any other version `toggle_pump` writes the pump-enable register. -/
theorem pump_enable_firmware_bypass (tr : Transport) (fuel : Nat)
    (st : ClientState) (t : Bool) :
    (st.version.take 3 = v213 →
        toggle_pump tr fuel t st = (PyResult.ok (), st) ∧
        validate_pump_enable tr st = (true, st)) ∧
    (st.version.take 3 ≠ v213 →
        ∃ rest, (toggle_pump tr fuel t st).2.events =
          st.events ++ Event.write Reg.PUMP_ENABLE (if t then 1 else 0) :: rest) := by
  constructor
  · intro hv
    constructor
    · unfold toggle_pump
      rw [if_neg (not_not_intro hv)]
    · unfold validate_pump_enable
      rw [if_neg (not_not_intro hv)]
  · intro hv
    unfold toggle_pump
    rw [if_pos hv]
    simp only [liftSetData_snd]
    have henc : encodeSigned (if t then 1 else 0) = (if t then 1 else 0) := by
      cases t <;> rfl
    obtain ⟨rest, hrest⟩ :=
      set_data_events tr fuel Reg.PUMP_ENABLE (if t then 1 else 0) st.events
    rw [henc] at hrest
    exact ⟨rest, hrest⟩

/-- Witness for C7 at firmware `[2, 1, 3]` (no-op) and `[2, 0, 45]`
(pump-enable write). -/
theorem pump_enable_firmware_bypass_witness :
    (toggle_pump trPumpOn 1 true stV213 = (PyResult.ok (), stV213) ∧
      validate_pump_enable trPumpOn stV213 = (true, stV213)) ∧
    ∃ rest, (toggle_pump trPumpOn 1 true st2045).2.events =
      Event.write Reg.PUMP_ENABLE 1 :: rest := by
  constructor
  · exact (pump_enable_firmware_bypass trPumpOn 1 stV213 true).1 (by decide)
  · obtain ⟨rest, hrest⟩ :=
      (pump_enable_firmware_bypass trPumpOn 1 st2045 true).2 (by decide)
    exact ⟨rest, by simpa using hrest⟩

/-- C8 — refuted by the code (code bug): `get_firmware_version` resets
`self.version` to `[]` before the `len(self.version) < 3` cache guard, so
the guard is dead and every call — not only the first — performs three
fresh firmware register reads; the version is not served from the cache. -/
theorem get_firmware_version_rereads_every_call (tr : Transport)
    (st : ClientState) :
    (get_firmware_version tr (get_firmware_version tr st).2).2.events =
      (get_firmware_version tr st).2.events ++
        [Event.readInput Reg.FIRMWARE_VERSION,
         Event.readInput Reg.FIRMWARE_SUBVERSION,
         Event.readInput Reg.FIRMWARE_BUILD] := by
  simp [get_firmware_version, get_data_snd]

/-- C9 — a `ModbusException` or `TypeError` raised by the register write or
by the status-word poll is caught and only logged inside `_set_data`: every
write operation returns normally (`None`), so the caller cannot distinguish
a failed write from a successful one. -/
theorem set_data_swallows_transport_errors (tr : Transport) (fuel : Nat)
    (st : ClientState) (p t pc vc : Int) (b : Bool) (hfuel : 1 ≤ fuel)
    (hV : st.version.take 3 ≠ v213)
    (hP : ∀ n, tr.readHolding n Reg.PUMP_ENABLE = RResp.ok 1)
    (hp : -450 ≤ p ∧ p ≤ 450) (ht : 5 ≤ t ∧ t < 65535)
    (hpc : 200 ≤ pc ∧ pc ≤ 1000) (hvc : -900 ≤ vc ∧ vc ≤ -200)
    (hF : (∀ n r v, tr.writeReg n r v ≠ WResp.ok) ∨
          ((∀ n r v, tr.writeReg n r v = WResp.ok) ∧
           ∀ n, tr.readInput n Reg.STATUS_WORD = RResp.modbusExc)) :
    (set_output_pressure tr fuel p st).1 = PyResult.ok () ∧
    (set_actuation_time tr fuel t st).1 = PyResult.ok () ∧
    (set_pressure_chamber tr fuel pc st).1 = PyResult.ok () ∧
    (set_vacuum_chamber tr fuel vc st).1 = PyResult.ok () ∧
    (toggle_pump tr fuel b st).1 = PyResult.ok () := by
  have hsd : ∀ reg val evs,
      (set_data tr fuel reg val evs).1 = SetDataOutcome.done :=
    fun reg val evs => set_data_exc_done tr fuel reg val evs hfuel hF
  have hgd : get_data_holding tr st.events Reg.PUMP_ENABLE =
      (some 1, st.events ++ [Event.readHolding Reg.PUMP_ENABLE]) := by
    unfold get_data_holding
    rw [hP st.events.length]
  have hval : validate_pump_enable tr st =
      (true, { st with
        events := st.events ++ [Event.readHolding Reg.PUMP_ENABLE] }) := by
    unfold validate_pump_enable
    rw [if_pos hV, hgd]
  refine ⟨?_, ?_, ?_, ?_, ?_⟩
  · unfold set_output_pressure
    rw [hval]
    dsimp only
    rw [if_pos rfl,
      if_pos (show MINIMUM_OUTPUT_PRESSURE_MBAR ≤ p ∧
        p ≤ MAXIMUM_OUTPUT_PRESSURE_MBAR from ⟨hp.1, hp.2⟩)]
    exact liftSetData_fst_done (hsd _ _ _)
  · unfold set_actuation_time
    rw [if_pos ht]
    exact liftSetData_fst_done (hsd _ _ _)
  · unfold set_pressure_chamber
    rw [if_pos (show MINIMUM_PRESSURE_CHAMBER_MBAR ≤ pc ∧
      pc ≤ MAXIMUM_PRESSURE_CHAMBER_MBAR from ⟨hpc.1, hpc.2⟩)]
    exact liftSetData_fst_done (hsd _ _ _)
  · unfold set_vacuum_chamber
    rw [if_pos (show MINIMUM_VACUUM_CHAMBER_MBAR ≤ vc ∧
      vc ≤ MAXIMUM_VACUUM_CHAMBER_MBAR from ⟨hvc.1, hvc.2⟩)]
    exact liftSetData_fst_done (hsd _ _ _)
  · unfold toggle_pump
    rw [if_pos hV]
    exact liftSetData_fst_done (hsd _ _ _)

/-- Witness for C9: pump enabled, firmware `[2, 0, 45]`, every write
raising `ModbusException` — all five write operations return normally. -/
theorem set_data_swallows_transport_errors_witness :
    (set_output_pressure trWFail 1 200 st2045).1 = PyResult.ok () ∧
    (set_actuation_time trWFail 1 100 st2045).1 = PyResult.ok () ∧
    (set_pressure_chamber trWFail 1 500 st2045).1 = PyResult.ok () ∧
    (set_vacuum_chamber trWFail 1 (-500) st2045).1 = PyResult.ok () ∧
    (toggle_pump trWFail 1 true st2045).1 = PyResult.ok () :=
  set_data_swallows_transport_errors trWFail 1 st2045 200 100 500 (-500) true
    (by decide) (by decide) (fun _ => rfl) (by decide) (by decide)
    (by decide) (by decide) (Or.inl fun _ _ _ h => WResp.noConfusion h)

/-- C10 — the decode bit width equals the raw value's binary digit count,
so the sign bit is set for every non-zero raw value: every raw in
[1, 65535] decodes to `raw − 2^bitlength(raw)`, which is strictly negative;
consequently `get_vacuum_chamber` never returns a positive value and
`get_output_pressure` never returns a value in (500, 65535]. -/
theorem bitlen_decode_always_negative (raw : Nat)
    (h1 : 1 ≤ raw) (h2 : raw ≤ 65535) :
    (convert_twos_comp raw (pyBitLen raw) = (raw : Int) - 2 ^ pyBitLen raw ∧
      convert_twos_comp raw (pyBitLen raw) < 0) ∧
    (∀ tr evs x, (get_vacuum_chamber tr evs).1 = PyResult.ok x → x ≤ 0) ∧
    (∀ tr evs x, (get_output_pressure tr evs).1 = PyResult.ok x → x ≤ 500) := by
  refine ⟨convert_twos_comp_pyBitLen raw h1, ?_, ?_⟩
  · intro tr evs x hx
    unfold get_vacuum_chamber get_data at hx
    revert hx
    cases hr : tr.readInput evs.length Reg.VACUUM_ACTUAL_MBAR with
    | ok v =>
      intro hx
      dsimp only at hx
      have hxv : x = convert_twos_comp v (pyBitLen v) :=
        (PyResult.ok.injEq _ _).mp hx.symm
      rcases Nat.eq_zero_or_pos v with hz | hpos
      · subst hz
        rw [hxv]
        decide
      · have := (convert_twos_comp_pyBitLen v hpos).2
        omega
    | modbusExc => intro hx; dsimp only at hx; simp at hx
    | typeExc => intro hx; dsimp only at hx; simp at hx
  · intro tr evs x hx
    unfold get_output_pressure get_data at hx
    revert hx
    cases hr : tr.readInput evs.length Reg.OUTPUT_PRESSURE_ACTUAL_MBAR with
    | ok v =>
      intro hx
      dsimp only at hx
      by_cases hv : 500 < v
      · rw [if_pos hv] at hx
        have hxv : x = convert_twos_comp v (pyBitLen v) :=
          (PyResult.ok.injEq _ _).mp hx.symm
        have := (convert_twos_comp_pyBitLen v (by omega)).2
        omega
      · rw [if_neg hv] at hx
        have hxv : x = (v : Int) := (PyResult.ok.injEq _ _).mp hx.symm
        have : (v : Int) ≤ 500 := by exact_mod_cast Nat.le_of_not_lt hv
        omega
    | modbusExc => intro hx; dsimp only at hx; simp at hx
    | typeExc => intro hx; dsimp only at hx; simp at hx

/-- Witness for C10: raw 501 decodes to −11, a negative value. -/
theorem bitlen_decode_always_negative_witness :
    convert_twos_comp 501 (pyBitLen 501) = -11 ∧
      convert_twos_comp 501 (pyBitLen 501) < 0 := by
  have h := bitlen_decode_always_negative 501 (by decide) (by decide)
  refine ⟨?_, h.1.2⟩
  rw [h.1.1]
  decide

end PGVA
